import Mathlib

/-!
Shallow embedding of the account store of `user-manager.js` (class `UserManager`).

The persisted collection (`localStorage` key `users`) is modelled as a
`List User`; each mutating operation takes the current collection and returns
the collection that is persisted afterwards together with the operation's
result (`Except UMError α`, errors standing for the strings thrown by the
code).  `new Date().toISOString()` timestamps are modelled as an abstract
`Nat` clock value passed in by the caller; ISO-string order corresponds to
clock order.  JavaScript string operations are embedded over `List Char`:
`toLowerCase` as ASCII lowercasing, `trim` as whitespace stripping at both
ends, and the two regular expressions of `validateUserData` as executable
matchers of the same languages.
-/

/-- ASCII lowercasing of one character: the effect of JavaScript
`String.prototype.toLowerCase` on the code points the repository uses. -/
def jsLowerChar (c : Char) : Char :=
  if 65 ≤ c.toNat ∧ c.toNat ≤ 90 then Char.ofNat (c.toNat + 32) else c

/-- Embedding of `s.toLowerCase()`. -/
def jsLower (s : String) : String :=
  ⟨s.data.map jsLowerChar⟩

/-- Embedding of `s.trim()`: drop whitespace from both ends. -/
def jsTrim (s : String) : String :=
  ⟨((s.data.dropWhile Char.isWhitespace).reverse.dropWhile Char.isWhitespace).reverse⟩

/-- A stored user record (the object shape produced by `addUser` /
`initializeStorage`).  `createdAt` and `lastLogin` are abstract clock
values; `lastLogin` is `none` for the JSON `null`. -/
structure User where
  id : Int
  firstName : String
  lastName : String
  email : String
  phone : String
  password : String
  createdAt : Nat
  lastLogin : Option Nat
  isActive : Bool
deriving DecidableEq, Repr

/-- The argument object of `addUser` (and of `validateUserData`). -/
structure UserData where
  firstName : String
  lastName : String
  email : String
  phone : String
  password : String
deriving DecidableEq, Repr

/-- The partial-update object passed to `updateUser`: `some v` for a field
present in `updateData`, `none` for an absent one (spread-merge semantics of
`{ ...user, ...updateData }`). -/
structure UpdateData where
  id : Option Int := none
  firstName : Option String := none
  lastName : Option String := none
  email : Option String := none
  phone : Option String := none
  password : Option String := none
  createdAt : Option Nat := none
  lastLogin : Option (Option Nat) := none
  isActive : Option Bool := none
deriving DecidableEq, Repr

/-- The distinguishable error conditions thrown by the store. -/
inductive UMError where
  | duplicateEmail
  | notFound
  | accountDisabled
  | invalidCredentials
  | invalidFormat
deriving DecidableEq, Repr

/-- `getUserByEmail(email)`: first record whose lowercased email equals the
lowercased query. -/
def getUserByEmail (users : List User) (email : String) : Option User :=
  users.find? (fun u => jsLower u.email == jsLower email)

/-- `getUserById(id)`: first record with the given numeric id. -/
def getUserById (users : List User) (id : Int) : Option User :=
  users.find? (fun u => u.id == id)

/-- `generateUserId()`: `Math.max(...ids) + 1`, or `1` on an empty
collection. -/
def generateUserId (users : List User) : Int :=
  match users with
  | [] => 1
  | u :: us => (us.foldl (fun m v => max m v.id) u.id) + 1

/-- `addUser(userData)`: duplicate-email check against the stored collection,
then append a fresh record (lowercased email, `lastLogin: null`,
`isActive: true`, id from `generateUserId`).  On the duplicate error the
collection is not rewritten. -/
def addUser (users : List User) (d : UserData) (now : Nat) :
    List User × Except UMError User :=
  match getUserByEmail users d.email with
  | some _ => (users, .error .duplicateEmail)
  | none =>
    let newUser : User :=
      { id := generateUserId users
        firstName := d.firstName
        lastName := d.lastName
        email := jsLower d.email
        phone := d.phone
        password := d.password
        createdAt := now
        lastLogin := none
        isActive := true }
    (users ++ [newUser], .ok newUser)

/-- The spread merge `{ ...u, ...d }` of `updateUser`. -/
def mergeUser (u : User) (d : UpdateData) : User :=
  { id := d.id.getD u.id
    firstName := d.firstName.getD u.firstName
    lastName := d.lastName.getD u.lastName
    email := d.email.getD u.email
    phone := d.phone.getD u.phone
    password := d.password.getD u.password
    createdAt := d.createdAt.getD u.createdAt
    lastLogin := d.lastLogin.getD u.lastLogin
    isActive := d.isActive.getD u.isActive }

/-- Replace the first record whose id matches (the `findIndex` /
assignment pair of `updateUser`); `none` when no record matches. -/
def updateUserList (users : List User) (id : Int) (d : UpdateData) :
    Option (List User × User) :=
  match users with
  | [] => none
  | u :: us =>
    if u.id == id then some (mergeUser u d :: us, mergeUser u d)
    else match updateUserList us id d with
         | none => none
         | some (us2, r) => some (u :: us2, r)

/-- `updateUser(userId, updateData)`: merge the given fields into the first
record with the given id; `User not found` otherwise (collection kept). -/
def updateUser (users : List User) (id : Int) (d : UpdateData) :
    List User × Except UMError User :=
  match updateUserList users id d with
  | none => (users, .error .notFound)
  | some (us, r) => (us, .ok r)

/-- `deleteUser(userId)`: filter out the matching id; `User not found` (and
no rewrite) when nothing was removed. -/
def deleteUser (users : List User) (id : Int) :
    List User × Except UMError Bool :=
  let updated := users.filter (fun u => u.id != id)
  if users.length == updated.length then (users, .error .notFound)
  else (updated, .ok true)

/-- `authenticateUser(email, password)`: lookup by email, active check,
plain string password comparison, then `updateUser(user.id, { lastLogin:
now })`.  The returned record is the snapshot captured before the update. -/
def authenticateUser (users : List User) (email password : String) (now : Nat) :
    List User × Except UMError User :=
  match getUserByEmail users email with
  | none => (users, .error .notFound)
  | some u =>
    if !u.isActive then (users, .error .accountDisabled)
    else if u.password != password then (users, .error .invalidCredentials)
    else ((updateUser users u.id { lastLogin := some (some now) }).1, .ok u)

/-- The structured snapshot produced by `exportUsers` (users plus
metadata). -/
structure ExportData where
  users : List User
  exportDate : Nat
  totalUsers : Nat
  version : String
deriving DecidableEq, Repr

/-- `exportUsers()`. -/
def exportUsers (users : List User) (now : Nat) : ExportData :=
  { users := users, exportDate := now, totalUsers := users.length, version := "1.0" }

/-- `importUsers(jsonData, mergeMode)` on a snapshot whose user list is a
sequence (the `Array.isArray` check passed).  In merge mode the duplicate
check (`getUserByEmail`) and the id generator (`generateUserId`) both read
the persisted collection, which is rewritten only after the whole snapshot
is processed, so every appended record is checked against and numbered from
the pre-import collection. -/
def importUsers (users : List User) (imported : List User) (mergeMode : Bool) :
    List User × Except UMError Nat :=
  if mergeMode then
    let added :=
      (imported.filter (fun iu => (getUserByEmail users iu.email).isNone)).map
        (fun iu => { iu with id := generateUserId users })
    let merged := users ++ added
    (merged, .ok (merged.length - users.length))
  else
    (imported, .ok imported.length)

/-- One character of the `[^\s@]` class of the email pattern. -/
def isEmailChar (c : Char) : Bool :=
  !c.isWhitespace && c != '@'

/-- Whether the list has a `.` that is neither its first nor its last
element: exactly when it splits as `[^\s@]+ "." [^\s@]+` once the
surrounding characters are known to be in the class. -/
def hasInteriorDot (l : List Char) : Bool :=
  match l with
  | [] => false
  | _ :: rest => rest.dropLast.contains '.'

/-- Matcher of `/^[^\s@]+@[^\s@]+\.[^\s@]+$/` (the email pattern of
`validateUserData`): exactly one `@`, a nonempty whitespace-free local part,
and a whitespace-free domain containing an interior dot. -/
def emailRegexMatch (s : String) : Bool :=
  match s.data.splitOn '@' with
  | [a, b] => !a.isEmpty && a.all isEmailChar && b.all isEmailChar && hasInteriorDot b
  | _ => false

/-- `phone.replace(/[\s\-\(\)]/g, "")`: strip whitespace, dashes and
parentheses. -/
def stripPhone (s : String) : String :=
  ⟨s.data.filter (fun c => !(c.isWhitespace || c == '-' || c == '(' || c == ')'))⟩

/-- Matcher of `/^[\+]?[1-9][\d]{0,15}$/` (the phone pattern of
`validateUserData`): optional leading plus, then a nonzero digit and at most
fifteen further digits. -/
def phoneRegexMatch (s : String) : Bool :=
  let ds := match s.data with
            | '+' :: rest => rest
            | cs => cs
  match ds with
  | [] => false
  | c :: rest => ('1' ≤ c && c ≤ '9') && rest.all Char.isDigit && rest.length ≤ 15

/-- The result object of `validateUserData`. -/
structure ValidationResult where
  isValid : Bool
  errors : List String
deriving DecidableEq, Repr

/-- `validateUserData(userData)`: the ordered violation list and the overall
flag.  (For string-valued fields the separate JavaScript falsiness checks
`!userData.x` are subsumed: the empty string fails each of the pattern and
length tests.) -/
def validateUserData (d : UserData) : ValidationResult :=
  let errs :=
    (if (jsTrim d.firstName).length < 2 then
      ["First name must be at least 2 characters long"] else []) ++
    (if (jsTrim d.lastName).length < 2 then
      ["Last name must be at least 2 characters long"] else []) ++
    (if !emailRegexMatch d.email then
      ["Please provide a valid email address"] else []) ++
    (if !phoneRegexMatch (stripPhone d.phone) then
      ["Please provide a valid phone number"] else []) ++
    (if d.password.length < 8 then
      ["Password must be at least 8 characters long"] else [])
  { isValid := errs.length == 0, errors := errs }

/-- Modelled from the spec (claim wording, for comparison with the code's
phone pattern): the stripped phone is "digits with an optional leading
plus" — an optional `+` followed by one or more decimal digits. -/
def specPhonePattern (s : String) : Bool :=
  let ds := match s.data with
            | '+' :: rest => rest
            | cs => cs
  !ds.isEmpty && ds.all Char.isDigit

/-! ### Small concrete records used to instantiate the theorems -/

/-- First seed record of `initializeStorage`. -/
def uJohn : User :=
  ⟨1, "John", "Doe", "john@example.com", "+1234567890", "Password123!", 0, none, true⟩

/-- Second seed record of `initializeStorage`. -/
def uJane : User :=
  ⟨2, "Jane", "Smith", "jane@example.com", "+0987654321", "SecurePass456@", 0, none, true⟩

/-- The creation input of the spec's example scenario. -/
def dAlice : UserData :=
  ⟨"Alice", "Wilson", "Alice@X.com", "+15556667777", "Secret123!"⟩

/-- Records sharing the identifier `5`, a shape merge-mode import can
produce in the stored collection. -/
def uDupA : User :=
  ⟨5, "Ann", "Lee", "a@x.co", "+15550000001", "passpass", 0, none, true⟩

/-- Second record with identifier `5`. -/
def uDupB : User :=
  ⟨5, "Bob", "Kim", "b@x.co", "+15550000002", "qqqqqqqq", 0, none, true⟩

/-- A snapshot record with an email absent from the seed collection. -/
def uImpB : User :=
  ⟨0, "Bea", "Cho", "bea@y.co", "+15550000003", "secretpw", 0, none, true⟩

/-- A second snapshot record with another fresh email. -/
def uImpC : User :=
  ⟨0, "Cal", "Dee", "cal@y.co", "+15550000004", "secretpw", 0, none, true⟩

/-- A record sharing (up to case) the email of `uImpB`. -/
def uImpB2 : User :=
  ⟨9, "Bee", "Two", "BEA@Y.CO", "+15550000005", "secretpw2", 0, none, true⟩

example : jsLower "AbC@X.cOm" = "abc@x.com" := by decide
example : emailRegexMatch "a.b@x.co" = true := by decide
example : emailRegexMatch "a@x" = false := by decide
example : emailRegexMatch "a@.co" = false := by decide
example : phoneRegexMatch (stripPhone "+1 (555) 666-7777") = true := by decide
example : phoneRegexMatch "0123" = false := by decide
example : specPhonePattern "0123" = true := by decide

/-! ### Helper lemmas -/

theorem charOfNat_toNat {n : Nat} (h : n < 55296) : (Char.ofNat n).toNat = n := by
  rw [Char.ofNat, dif_pos (Or.inl h)]
  rfl

theorem jsLowerChar_not_upper (c : Char) :
    ¬ (65 ≤ (jsLowerChar c).toNat ∧ (jsLowerChar c).toNat ≤ 90) := by
  unfold jsLowerChar
  split
  · rename_i h
    rw [charOfNat_toNat (by omega)]
    omega
  · rename_i h
    exact h

theorem jsLowerChar_idem (c : Char) : jsLowerChar (jsLowerChar c) = jsLowerChar c := by
  conv_lhs => rw [jsLowerChar]
  rw [if_neg (jsLowerChar_not_upper c)]

theorem jsLower_data (s : String) : (jsLower s).data = s.data.map jsLowerChar := rfl

theorem jsLower_idem (s : String) : jsLower (jsLower s) = jsLower s := by
  unfold jsLower
  congr 1
  simp only [List.map_map, Function.comp]
  exact List.map_congr_left (fun c _ => jsLowerChar_idem c)

theorem find?_eq_some_split {α : Type} {p : α → Bool} {l : List α} {a : α}
    (h : l.find? p = some a) :
    ∃ l1 l2, l = l1 ++ a :: l2 ∧ p a = true ∧ ∀ x ∈ l1, p x = false := by
  induction l with
  | nil => simp at h
  | cons b bs ih =>
    by_cases hb : p b = true
    · rw [List.find?_cons_of_pos _ hb, Option.some.injEq] at h
      exact ⟨[], bs, by simp [h], h ▸ hb, by simp⟩
    · rw [List.find?_cons_of_neg _ (by simpa using hb)] at h
      obtain ⟨l1, l2, hsplit, hpa, hall⟩ := ih h
      refine ⟨b :: l1, l2, by rw [hsplit]; rfl, hpa, ?_⟩
      intro x hx
      rcases List.mem_cons.mp hx with rfl | hx
      · simpa using hb
      · exact hall x hx

theorem find?_append_cons {α : Type} {p : α → Bool} {l1 l2 : List α} {a : α}
    (h1 : ∀ x ∈ l1, p x = false) (h2 : p a = true) :
    (l1 ++ a :: l2).find? p = some a := by
  induction l1 with
  | nil => simpa using List.find?_cons_of_pos _ h2
  | cons b bs ih =>
    rw [List.cons_append, List.find?_cons_of_neg, ih]
    · intro x hx
      exact h1 x (List.mem_cons_of_mem b hx)
    · simpa using h1 b (List.mem_cons_self b bs)

theorem find?_eq_none_all {α : Type} {p : α → Bool} {l : List α}
    (h : ∀ x ∈ l, p x = false) : l.find? p = none := by
  rw [List.find?_eq_none]
  intro x hx
  simp [h x hx]

theorem updateUserList_split {l1 l2 : List User} {u : User} {id : Int}
    {d : UpdateData} (h1 : ∀ v ∈ l1, v.id ≠ id) (h2 : u.id = id) :
    updateUserList (l1 ++ u :: l2) id d =
      some (l1 ++ mergeUser u d :: l2, mergeUser u d) := by
  induction l1 with
  | nil => simp [updateUserList, h2]
  | cons v vs ih =>
    have hv : (v.id == id) = false := by
      simpa using h1 v (List.mem_cons_self v vs)
    rw [List.cons_append, updateUserList, hv]
    simp only [Bool.false_eq_true, if_false]
    rw [ih (fun w hw => h1 w (List.mem_cons_of_mem v hw))]
    rfl

theorem foldl_max_le (l : List User) (a : Int) :
    a ≤ l.foldl (fun m v => max m v.id) a ∧
      ∀ v ∈ l, v.id ≤ l.foldl (fun m v => max m v.id) a := by
  induction l generalizing a with
  | nil => simp
  | cons u us ih =>
    simp only [List.foldl_cons]
    refine ⟨le_trans (le_max_left a u.id) (ih (max a u.id)).1, ?_⟩
    intro v hv
    rcases List.mem_cons.mp hv with rfl | hv
    · exact le_trans (le_max_right a v.id) (ih (max a v.id)).1
    · exact (ih (max a u.id)).2 v hv

theorem foldl_max_mem (l : List User) (a : Int) :
    l.foldl (fun m v => max m v.id) a = a ∨
      ∃ v ∈ l, l.foldl (fun m v => max m v.id) a = v.id := by
  induction l generalizing a with
  | nil => simp
  | cons u us ih =>
    simp only [List.foldl_cons]
    rcases ih (max a u.id) with h | ⟨v, hv, h⟩
    · rcases le_total a u.id with hle | hle
      · right
        exact ⟨u, List.mem_cons_self u us, by rw [h, max_eq_right hle]⟩
      · left
        rw [h, max_eq_left hle]
    · right
      exact ⟨v, List.mem_cons_of_mem u hv, h⟩

theorem generateUserId_gt {users : List User} {v : User} (hv : v ∈ users) :
    v.id < generateUserId users := by
  cases users with
  | nil => cases hv
  | cons u us =>
    rw [generateUserId]
    rcases List.mem_cons.mp hv with rfl | hv
    · have := (foldl_max_le us v.id).1
      omega
    · have := (foldl_max_le us u.id).2 v hv
      omega

theorem generateUserId_eq_succ {users : List User} (h : users ≠ []) :
    ∃ v ∈ users, generateUserId users = v.id + 1 := by
  cases users with
  | nil => exact absurd rfl h
  | cons u us =>
    rw [generateUserId]
    rcases foldl_max_mem us u.id with hm | ⟨v, hv, hm⟩
    · exact ⟨u, List.mem_cons_self u us, by rw [hm]⟩
    · exact ⟨v, List.mem_cons_of_mem u hv, by rw [hm]⟩

/-! ### Facts about the individual operations -/

theorem getUserByEmail_eq_none {users : List User} {e : String}
    (h : getUserByEmail users e = none) :
    ∀ v ∈ users, (jsLower v.email == jsLower e) = false := by
  unfold getUserByEmail at h
  intro v hv
  simpa using List.find?_eq_none.mp h v hv

theorem addUser_ok (users : List User) (d : UserData) (now : Nat)
    (h : getUserByEmail users d.email = none) :
    addUser users d now =
      (users ++ [⟨generateUserId users, d.firstName, d.lastName, jsLower d.email,
        d.phone, d.password, now, none, true⟩],
       .ok ⟨generateUserId users, d.firstName, d.lastName, jsLower d.email,
        d.phone, d.password, now, none, true⟩) := by
  unfold addUser
  rw [h]

/-- C3: for a creation input whose email matches no existing record
case-insensitively, `addUser` appends to the end of the collection a record
carrying the input's fields with the email lowercased, `lastLogin` absent and
`isActive` true, whose id is strictly above every existing id, equals `1` on
an empty collection and `max(existing ids) + 1` (the maximum is attained)
otherwise, and returns that record; `getUserByEmail` with any case variant of
that email then returns it. -/
theorem addUser_fresh (users : List User) (d : UserData) (now : Nat)
    (h : getUserByEmail users d.email = none) :
    ∃ r : User,
      addUser users d now = (users ++ [r], .ok r) ∧
      r.firstName = d.firstName ∧ r.lastName = d.lastName ∧
      r.email = jsLower d.email ∧ r.phone = d.phone ∧
      r.password = d.password ∧ r.createdAt = now ∧
      r.lastLogin = none ∧ r.isActive = true ∧
      (∀ v ∈ users, v.id < r.id) ∧
      (users = [] → r.id = 1) ∧
      (users ≠ [] → ∃ v ∈ users, r.id = v.id + 1) ∧
      ∀ q : String, jsLower q = jsLower d.email →
        getUserByEmail (users ++ [r]) q = some r := by
  have hall := getUserByEmail_eq_none h
  refine ⟨⟨generateUserId users, d.firstName, d.lastName, jsLower d.email, d.phone,
    d.password, now, none, true⟩, addUser_ok users d now h, rfl, rfl, rfl, rfl, rfl,
    rfl, rfl, rfl, ?_, ?_, ?_, ?_⟩
  · intro v hv
    exact generateUserId_gt hv
  · intro he
    subst he
    rfl
  · intro hne
    exact generateUserId_eq_succ hne
  · intro q hq
    unfold getUserByEmail
    apply find?_append_cons
    · intro v hv
      rw [hq]
      exact hall v hv
    · show (jsLower (jsLower d.email) == jsLower q) = true
      rw [jsLower_idem, hq]
      exact beq_self_eq_true _

/-- Witness for C3: the spec's example scenario on the seed collection. -/
theorem addUser_fresh_witness :
    getUserByEmail [uJohn, uJane] dAlice.email = none ∧
    ∃ r : User,
      addUser [uJohn, uJane] dAlice 5 = ([uJohn, uJane] ++ [r], .ok r) ∧
      r.firstName = dAlice.firstName ∧ r.lastName = dAlice.lastName ∧
      r.email = jsLower dAlice.email ∧ r.phone = dAlice.phone ∧
      r.password = dAlice.password ∧ r.createdAt = 5 ∧
      r.lastLogin = none ∧ r.isActive = true ∧
      (∀ v ∈ [uJohn, uJane], v.id < r.id) ∧
      ([uJohn, uJane] = ([] : List User) → r.id = 1) ∧
      ([uJohn, uJane] ≠ ([] : List User) → ∃ v ∈ [uJohn, uJane], r.id = v.id + 1) ∧
      ∀ q : String, jsLower q = jsLower dAlice.email →
        getUserByEmail ([uJohn, uJane] ++ [r]) q = some r :=
  ⟨by decide, addUser_fresh [uJohn, uJane] dAlice 5 (by decide)⟩

/-- C4: creating a record with a fresh email and then a second one whose
email differs only in letter case fails the second creation with the
duplicate-email error, leaves the collection as the first creation left it,
and that collection holds exactly one record with that email. -/
theorem addUser_case_variant_duplicate (users : List User) (d1 d2 : UserData)
    (t1 t2 : Nat) (h : getUserByEmail users d1.email = none)
    (hcase : jsLower d2.email = jsLower d1.email) :
    addUser (addUser users d1 t1).1 d2 t2 =
      ((addUser users d1 t1).1, .error .duplicateEmail) ∧
    ((addUser users d1 t1).1.filter
        (fun u => jsLower u.email == jsLower d1.email)).length = 1 := by
  have hall := getUserByEmail_eq_none h
  have hstate := congrArg Prod.fst (addUser_ok users d1 t1 h)
  rw [hstate]
  have hfind : getUserByEmail
      (users ++ [⟨generateUserId users, d1.firstName, d1.lastName, jsLower d1.email,
        d1.phone, d1.password, t1, none, true⟩]) d2.email =
      some ⟨generateUserId users, d1.firstName, d1.lastName, jsLower d1.email,
        d1.phone, d1.password, t1, none, true⟩ := by
    unfold getUserByEmail
    apply find?_append_cons
    · intro v hv
      rw [hcase]
      exact hall v hv
    · show (jsLower (jsLower d1.email) == jsLower d2.email) = true
      rw [jsLower_idem, hcase]
      exact beq_self_eq_true _
  constructor
  · unfold addUser
    rw [hfind]
  · rw [List.filter_append]
    have h1 : users.filter (fun u => jsLower u.email == jsLower d1.email) = [] := by
      apply List.filter_eq_nil_iff.mpr
      intro v hv
      simp [hall v hv]
    rw [h1]
    simp [List.filter, jsLower_idem]

/-- Witness for C4: `alice@x.com` then `ALICE@X.COM` on the seed
collection. -/
theorem addUser_case_variant_duplicate_witness :
    addUser (addUser [uJohn, uJane] dAlice 5).1 ⟨"Alice", "Wilson", "ALICE@X.COM",
        "+15556667777", "Secret123!"⟩ 6 =
      ((addUser [uJohn, uJane] dAlice 5).1, .error .duplicateEmail) ∧
    ((addUser [uJohn, uJane] dAlice 5).1.filter
        (fun u => jsLower u.email == jsLower dAlice.email)).length = 1 :=
  addUser_case_variant_duplicate [uJohn, uJane] dAlice
    ⟨"Alice", "Wilson", "ALICE@X.COM", "+15556667777", "Secret123!"⟩ 5 6
    (by decide) (by decide)

/-- C5: `exportUsers` followed by `importUsers` in replace mode restores the
exact collection (hence the same set of records), the restored collection's
size equals the snapshot's size, and the returned count is the snapshot's
size. -/
theorem export_import_replace_roundtrip (users : List User) (now : Nat) :
    (importUsers users (exportUsers users now).users false).1 = users ∧
    (∀ u : User, u ∈ (importUsers users (exportUsers users now).users false).1 ↔
      u ∈ users) ∧
    (importUsers users (exportUsers users now).users false).1.length =
      (exportUsers users now).users.length ∧
    (importUsers users (exportUsers users now).users false).2 =
      .ok (exportUsers users now).users.length := by
  refine ⟨rfl, fun u => Iff.rfl, rfl, rfl⟩

/-- C6: deleting an id that matches no record fails with the not-found error
and leaves the persisted collection unchanged. -/
theorem deleteUser_missing_id (users : List User) (id : Int)
    (h : ∀ u ∈ users, u.id ≠ id) :
    deleteUser users id = (users, .error .notFound) := by
  have hf : users.filter (fun u => u.id != id) = users := by
    apply List.filter_eq_self.mpr
    intro u hu
    simpa using h u hu
  simp [deleteUser, hf]

/-- Witness for C6: deleting the absent id `7` from the seed collection. -/
theorem deleteUser_missing_id_witness :
    deleteUser [uJohn, uJane] 7 = ([uJohn, uJane], .error .notFound) :=
  deleteUser_missing_id [uJohn, uJane] 7 (by decide)

theorem nodup_ids_head_not_in_left {l1 l2 : List User} {u : User}
    (hnd : ((l1 ++ u :: l2).map User.id).Nodup) :
    ∀ v ∈ l1, v.id ≠ u.id := by
  intro v hv hEq
  rw [List.map_append] at hnd
  have hdisj := List.disjoint_of_nodup_append hnd
  refine hdisj (List.mem_map_of_mem User.id hv) ?_
  rw [List.map_cons, hEq]
  exact List.mem_cons_self _ _

theorem authSuccess_split (users : List User) (e p : String) (now : Nat)
    (u : User) (hu : getUserByEmail users e = some u) (hact : u.isActive = true)
    (hpw : u.password = p) (hnd : (users.map User.id).Nodup) :
    ∃ l1 l2, users = l1 ++ u :: l2 ∧
      (∀ v ∈ l1, (jsLower v.email == jsLower e) = false) ∧
      (jsLower u.email == jsLower e) = true ∧
      authenticateUser users e p now =
        (l1 ++ { u with lastLogin := some now } :: l2, .ok u) := by
  have hu' := hu
  unfold getUserByEmail at hu'
  obtain ⟨l1, l2, hsplit, hpred, hall⟩ := find?_eq_some_split hu'
  subst hsplit
  have hid : ∀ v ∈ l1, v.id ≠ u.id := nodup_ids_head_not_in_left hnd
  refine ⟨l1, l2, rfl, hall, hpred, ?_⟩
  have hbne : (u.password != p) = false := by simp [hpw]
  unfold authenticateUser
  rw [hu]
  simp only [hact, Bool.not_true, Bool.false_eq_true, if_false, hbne]
  unfold updateUser
  rw [updateUserList_split hid rfl]
  simp [mergeUser, hact]

/-- Counterexample to C2 as stated: on a collection holding two records with
the same identifier, authenticating the second record succeeds, yet the
stored record matching that email keeps its old (absent) last-login — the
fresh timestamp is written onto the other record — so the success clause
"updates the stored record's last-login timestamp to the current time" fails
at this input. -/
theorem authenticateUser_duplicate_id_update :
    (authenticateUser [uDupA, uDupB] "b@x.co" "qqqqqqqq" 100).2 = .ok uDupB ∧
    getUserByEmail (authenticateUser [uDupA, uDupB] "b@x.co" "qqqqqqqq" 100).1
      "b@x.co" = some uDupB ∧
    uDupB.lastLogin = none ∧
    (authenticateUser [uDupA, uDupB] "b@x.co" "qqqqqqqq" 100).1 =
      [{ uDupA with lastLogin := some 100 }, uDupB] := by
  refine ⟨by rfl, by decide, rfl, by decide⟩

/-- C2 (amended): `authenticateUser` fails with not-found when no record
matches the email case-insensitively; fails with account-disabled when the
matched record is inactive, regardless of the password; fails with
invalid-credentials when the stored password is not string-equal to the
supplied one; and — provided no two records share an identifier — on success
writes the current clock value (the call time) into the matched stored
record's last-login and returns the matched record. -/
theorem authenticateUser_cases (users : List User) (e p : String) (now : Nat) :
    (getUserByEmail users e = none →
      authenticateUser users e p now = (users, .error .notFound)) ∧
    (∀ u : User, getUserByEmail users e = some u → u.isActive = false →
      authenticateUser users e p now = (users, .error .accountDisabled)) ∧
    (∀ u : User, getUserByEmail users e = some u → u.isActive = true →
      u.password ≠ p →
      authenticateUser users e p now = (users, .error .invalidCredentials)) ∧
    (∀ u : User, getUserByEmail users e = some u → u.isActive = true →
      u.password = p → (users.map User.id).Nodup →
      (authenticateUser users e p now).2 = .ok u ∧
      ∃ l1 l2, users = l1 ++ u :: l2 ∧
        (authenticateUser users e p now).1 =
          l1 ++ { u with lastLogin := some now } :: l2) := by
  refine ⟨?_, ?_, ?_, ?_⟩
  · intro h
    unfold authenticateUser
    rw [h]
  · intro u hu hact
    unfold authenticateUser
    rw [hu]
    simp [hact]
  · intro u hu hact hpw
    have hbne : (u.password != p) = true := bne_iff_ne.mpr hpw
    unfold authenticateUser
    rw [hu]
    simp [hact, hbne]
  · intro u hu hact hpw hnd
    obtain ⟨l1, l2, hsplit, _, _, hauth⟩ :=
      authSuccess_split users e p now u hu hact hpw hnd
    rw [hauth]
    exact ⟨rfl, l1, l2, hsplit, rfl⟩

/-- Witness for C2 (amended): the success branch on the first seed record. -/
theorem authenticateUser_cases_witness :
    getUserByEmail [uJohn] "john@example.com" = some uJohn ∧
    uJohn.isActive = true ∧ uJohn.password = "Password123!" ∧
    (([uJohn].map User.id).Nodup ∧
      (authenticateUser [uJohn] "john@example.com" "Password123!" 50).2 = .ok uJohn ∧
      ∃ l1 l2, [uJohn] = l1 ++ uJohn :: l2 ∧
        (authenticateUser [uJohn] "john@example.com" "Password123!" 50).1 =
          l1 ++ { uJohn with lastLogin := some 50 } :: l2) := by
  refine ⟨by decide, by decide, by decide, by decide, ?_⟩
  exact (authenticateUser_cases [uJohn] "john@example.com" "Password123!" 50).2.2.2
    uJohn (by decide) (by decide) (by decide) (by decide)

/-- C9: on successful authentication the returned record carries the
pre-call last-login (the snapshot captured before the update), while the
stored record for that email carries the freshly written clock value; when
the old value differs from the fresh one (always the case on a first login)
the two disagree immediately after the call. -/
theorem authenticateUser_stale_return (users : List User) (e p : String)
    (now : Nat) (u : User) (hu : getUserByEmail users e = some u)
    (hact : u.isActive = true) (hpw : u.password = p)
    (hnd : (users.map User.id).Nodup) (hfresh : u.lastLogin ≠ some now) :
    (authenticateUser users e p now).2 = .ok u ∧
    getUserByEmail (authenticateUser users e p now).1 e =
      some { u with lastLogin := some now } ∧
    u.lastLogin ≠ ({ u with lastLogin := some now } : User).lastLogin := by
  obtain ⟨l1, l2, hsplit, hall, hpred, hauth⟩ :=
    authSuccess_split users e p now u hu hact hpw hnd
  refine ⟨by rw [hauth], ?_, by simpa using hfresh⟩
  rw [hauth]
  unfold getUserByEmail
  exact find?_append_cons hall hpred

/-- Witness for C9: a first login on the seed record, at clock value 77. -/
theorem authenticateUser_stale_return_witness :
    uJohn.lastLogin ≠ some 77 ∧
    ((authenticateUser [uJohn] "john@example.com" "Password123!" 77).2 = .ok uJohn ∧
     getUserByEmail (authenticateUser [uJohn] "john@example.com" "Password123!" 77).1
       "john@example.com" = some { uJohn with lastLogin := some 77 } ∧
     uJohn.lastLogin ≠ ({ uJohn with lastLogin := some 77 } : User).lastLogin) := by
  refine ⟨by decide, ?_⟩
  exact authenticateUser_stale_return [uJohn] "john@example.com" "Password123!" 77
    uJohn (by decide) (by decide) (by decide) (by decide) (by decide)

/-- C8: on a collection holding a record with the given id (the first such
record, here isolated with its surroundings), `updateUser` replaces exactly
that record with the spread merge of the old record and the supplied fields,
leaves every other record unchanged, and returns the merged record; supplied
fields overwrite, absent fields keep the old values, and no email-uniqueness
check is performed — the update succeeds for every supplied email. -/
theorem updateUser_partial_frame (l1 l2 : List User) (u : User) (id : Int)
    (d : UpdateData) (h1 : ∀ v ∈ l1, v.id ≠ id) (h2 : u.id = id) :
    updateUser (l1 ++ u :: l2) id d =
      (l1 ++ mergeUser u d :: l2, .ok (mergeUser u d)) ∧
    (d.id = none → (mergeUser u d).id = u.id) ∧
    (∀ x, d.id = some x → (mergeUser u d).id = x) ∧
    (d.firstName = none → (mergeUser u d).firstName = u.firstName) ∧
    (∀ x, d.firstName = some x → (mergeUser u d).firstName = x) ∧
    (d.lastName = none → (mergeUser u d).lastName = u.lastName) ∧
    (∀ x, d.lastName = some x → (mergeUser u d).lastName = x) ∧
    (d.email = none → (mergeUser u d).email = u.email) ∧
    (∀ x, d.email = some x → (mergeUser u d).email = x) ∧
    (d.phone = none → (mergeUser u d).phone = u.phone) ∧
    (∀ x, d.phone = some x → (mergeUser u d).phone = x) ∧
    (d.password = none → (mergeUser u d).password = u.password) ∧
    (∀ x, d.password = some x → (mergeUser u d).password = x) ∧
    (d.createdAt = none → (mergeUser u d).createdAt = u.createdAt) ∧
    (∀ x, d.createdAt = some x → (mergeUser u d).createdAt = x) ∧
    (d.lastLogin = none → (mergeUser u d).lastLogin = u.lastLogin) ∧
    (∀ x, d.lastLogin = some x → (mergeUser u d).lastLogin = x) ∧
    (d.isActive = none → (mergeUser u d).isActive = u.isActive) ∧
    (∀ x, d.isActive = some x → (mergeUser u d).isActive = x) := by
  refine ⟨?_, ?_, ?_, ?_, ?_, ?_, ?_, ?_, ?_, ?_, ?_, ?_, ?_, ?_, ?_, ?_, ?_, ?_, ?_⟩
  · unfold updateUser
    rw [updateUserList_split h1 h2]
  all_goals first
    | (intro h; simp [mergeUser, h])
    | (intro x h; simp [mergeUser, h])

/-- Witness for C8: overwriting the second seed record's email with the
first seed record's email (a collision no check rejects). -/
theorem updateUser_partial_frame_witness :
    updateUser ([uJohn] ++ uJane :: []) 2 { email := some "john@example.com" } =
      ([uJohn] ++ mergeUser uJane { email := some "john@example.com" } :: [],
        .ok (mergeUser uJane { email := some "john@example.com" })) :=
  (updateUser_partial_frame [uJohn] [] uJane 2 { email := some "john@example.com" }
    (by decide) (by decide)).1

/-! ### Merge-mode import -/

theorem find?_isNone_eq_all {α : Type} (p : α → Bool) (l : List α) :
    (l.find? p).isNone = l.all (fun x => !p x) := by
  induction l with
  | nil => rfl
  | cons a as ih =>
    rw [List.all_cons]
    by_cases h : p a = true
    · rw [List.find?_cons_of_pos _ h, h]
      rfl
    · have h' : p a = false := by simpa using h
      rw [List.find?_cons_of_neg _ (by simp [h']), ih, h']
      rfl

theorem getUserByEmail_isNone_eq_all (users : List User) (e : String) :
    (getUserByEmail users e).isNone =
      users.all (fun u => jsLower u.email != jsLower e) := by
  unfold getUserByEmail
  rw [find?_isNone_eq_all]
  rfl

/-- Counterexample to C1 as stated: merge-importing a snapshot with two
fresh-email records into a one-record collection appends both and returns
count 2, but both appended records receive the same identifier `2` — the
id generator reads the persisted collection, which is only rewritten after
the whole snapshot is processed — so the resulting collection does have two
records sharing an identifier. -/
theorem importUsers_merge_duplicate_ids :
    (importUsers [uJohn] [uImpB, uImpC] true).2 = .ok 2 ∧
    (importUsers [uJohn] [uImpB, uImpC] true).1.map User.id = [1, 2, 2] ∧
    ¬ ((importUsers [uJohn] [uImpB, uImpC] true).1.map User.id).Nodup := by
  refine ⟨by rfl, by decide, by decide⟩

/-- C1 (amended): merge-mode import appends, in snapshot order, exactly the
snapshot records whose email does not already exist case-insensitively in
the pre-import collection; every appended record carries the identifier
`generateUserId` of the pre-import collection (the `max+1` rule computed
once against the persisted state, hence the same value for every appended
record); and the returned count is the number of records actually added. -/
theorem importUsers_merge_characterization (users imported : List User) :
    (importUsers users imported true).1 =
      users ++ (imported.filter
          (fun iu => users.all (fun u => jsLower u.email != jsLower iu.email))).map
        (fun iu => { iu with id := generateUserId users }) ∧
    (importUsers users imported true).2 =
      .ok (imported.filter
          (fun iu => users.all (fun u => jsLower u.email != jsLower iu.email))).length ∧
    ∀ v ∈ (importUsers users imported true).1.drop users.length,
      v.id = generateUserId users := by
  have hfilter : imported.filter (fun iu => (getUserByEmail users iu.email).isNone) =
      imported.filter
        (fun iu => users.all (fun u => jsLower u.email != jsLower iu.email)) := by
    apply List.filter_congr
    intro x _
    exact getUserByEmail_isNone_eq_all users x.email
  refine ⟨?_, ?_, ?_⟩
  · simp only [importUsers, if_true]
    rw [hfilter]
  · simp only [importUsers, if_true]
    rw [hfilter]
    simp [List.length_append]
  · intro v hv
    simp only [importUsers, if_true] at hv
    rw [List.drop_left] at hv
    obtain ⟨iu, _, rfl⟩ := List.mem_map.mp hv
    rfl

/-- Witness for C1 (amended): the concrete two-record snapshot again; the
appended image of the first snapshot record indeed carries the single fresh
identifier. -/
theorem importUsers_merge_characterization_witness :
    (importUsers [uJohn] [uImpB, uImpC] true).1 =
      [uJohn] ++ ([uImpB, uImpC].filter
          (fun iu => [uJohn].all (fun u => jsLower u.email != jsLower iu.email))).map
        (fun iu => { iu with id := generateUserId [uJohn] }) ∧
    ({ uImpB with id := 2 } : User).id = generateUserId [uJohn] :=
  ⟨(importUsers_merge_characterization [uJohn] [uImpB, uImpC]).1,
   (importUsers_merge_characterization [uJohn] [uImpB, uImpC]).2.2
      { uImpB with id := 2 } (by decide)⟩

/-- C10: when a merge-mode snapshot holds two records sharing an email (up
to case) that is absent from the existing collection, both are appended —
the duplicate check consults only the persisted pre-import collection — and
the resulting collection holds at least two records with that email. -/
theorem importUsers_merge_intra_snapshot_duplicates
    (users l1 l2 l3 : List User) (v w : User)
    (hvw : jsLower v.email = jsLower w.email)
    (hfresh : ∀ u ∈ users, jsLower u.email ≠ jsLower v.email) :
    2 ≤ ((importUsers users (l1 ++ v :: l2 ++ w :: l3) true).1.filter
        (fun x => jsLower x.email == jsLower v.email)).length := by
  have hallv : ∀ x ∈ users, (jsLower x.email == jsLower v.email) = false :=
    fun x hx => beq_eq_false_iff_ne.mpr (hfresh x hx)
  have hPv : (getUserByEmail users v.email).isNone = true := by
    unfold getUserByEmail
    rw [find?_eq_none_all hallv]
    rfl
  have hPw : (getUserByEmail users w.email).isNone = true := by
    unfold getUserByEmail
    rw [find?_eq_none_all (fun x hx => by rw [← hvw]; exact hallv x hx)]
    rfl
  simp only [importUsers, if_true]
  rw [← List.countP_eq_length_filter, List.countP_append, List.countP_map,
    List.countP_filter, List.countP_append, List.countP_cons, List.countP_append,
    List.countP_cons]
  rw [hPv, hPw]
  simp only [Function.comp, Bool.and_true]
  simp [hvw]
  omega

/-- Witness for C10: a snapshot holding `bea@y.co` and `BEA@Y.CO`, merged
into the seed collection. -/
theorem importUsers_merge_intra_snapshot_duplicates_witness :
    2 ≤ ((importUsers [uJohn] ([] ++ uImpB :: [] ++ uImpB2 :: []) true).1.filter
        (fun x => jsLower x.email == jsLower uImpB.email)).length :=
  importUsers_merge_intra_snapshot_duplicates [uJohn] [] [] [] uImpB uImpB2
    (by decide) (by decide)

/-! ### Validation -/

/-- Counterexample to C7 as stated: a phone of digits only with a leading
zero satisfies "digits with an optional leading plus", yet the code reports
the phone violation (and an overall invalid result), because the actual
pattern `/^[\+]?[1-9][\d]{0,15}$/` additionally requires a nonzero first
digit and at most sixteen digits. -/
theorem validateUserData_phone_divergence :
    specPhonePattern (stripPhone "0123456789") = true ∧
    (validateUserData ⟨"John", "Doe", "john@example.com", "0123456789",
        "Password123!"⟩).errors = ["Please provide a valid phone number"] ∧
    (validateUserData ⟨"John", "Doe", "john@example.com", "0123456789",
        "Password123!"⟩).isValid = false := by
  refine ⟨by decide, by decide, by decide⟩

/-- C7 (amended): `validateUserData` is a pure function of its argument
reporting: the first/last-name violation iff the trimmed name is shorter
than 2 characters; the email violation iff the email fails the address
pattern; the phone violation iff the stripped phone fails the pattern
`optional leading plus, a nonzero digit, at most fifteen further digits`;
the password violation iff the password is shorter than 8 characters; and
an overall flag that is true iff the violation list is empty. -/
theorem validateUserData_characterization (d : UserData) :
    ("First name must be at least 2 characters long" ∈ (validateUserData d).errors ↔
      (jsTrim d.firstName).length < 2) ∧
    ("Last name must be at least 2 characters long" ∈ (validateUserData d).errors ↔
      (jsTrim d.lastName).length < 2) ∧
    ("Please provide a valid email address" ∈ (validateUserData d).errors ↔
      emailRegexMatch d.email = false) ∧
    ("Please provide a valid phone number" ∈ (validateUserData d).errors ↔
      phoneRegexMatch (stripPhone d.phone) = false) ∧
    ("Password must be at least 8 characters long" ∈ (validateUserData d).errors ↔
      d.password.length < 8) ∧
    ((validateUserData d).isValid = true ↔ (validateUserData d).errors = []) := by
  simp only [validateUserData]
  split_ifs with h1 h2 h3 h4 h5 <;> simp_all
